import Mathlib

/-!
Verification of the PK/PD curve engine of the dose-optimisation repository.

The Python source is shallowly embedded over `ℝ`: numpy arrays become
`List ℝ` (or `List (Option ℝ)` where NaN masking matters, with `none`
playing the role of NaN), and each source function becomes a Lean
definition carrying the same name where possible.  Epsilon constants from
the source (`1e-9`, `1e-6`, `1e-3`) are written as exact rationals.
-/

noncomputable section

open Real

/-- Effective absorption rate used by `bateman` (src/utils/pk_models.py,
lines 14-16): if `|ka - ke| < 1e-9` the code reassigns `ka = ka + 1e-6`. -/
def bateman_ka_eff (ka ke : ℝ) : ℝ :=
  if |ka - ke| < 1 / 1000000000 then ka + 1 / 1000000 else ka

/-- Value of one sample of the `bateman` array (src/utils/pk_models.py,
lines 6-19): entries with `t < t0` stay at the `np.zeros_like` baseline 0,
entries with `t >= t0` get the closed form, and the final
`c[c < 0] = 0.0` clamp is the `max 0`. -/
def batemanVal (dose t0 ka ke x : ℝ) : ℝ :=
  if t0 ≤ x then
    max 0 (dose * (bateman_ka_eff ka ke / (bateman_ka_eff ka ke - ke)) *
      (Real.exp (-ke * (x - t0)) - Real.exp (-(bateman_ka_eff ka ke) * (x - t0))))
  else 0

/-- `bateman(t, dose, t0, ka, ke)` from src/utils/pk_models.py, lines 6-19. -/
def bateman (t : List ℝ) (dose t0 ka ke : ℝ) : List ℝ :=
  t.map (batemanVal dose t0 ka ke)

/-- One masked per-dose curve as built inside `curves_from_schedule`
(src/utils/pk_models.py, lines 22-35): the `curve[t < td] = np.nan`
masking is the `none` branch. -/
def doseCurve (t : List ℝ) (ka ke : ℝ) (p : ℝ × ℝ) : List (Option ℝ) :=
  t.map (fun x => if x < p.1 then none else some (batemanVal p.2 p.1 ka ke x))

/-- `curves_from_schedule(t, schedule, ka, ke)` from src/utils/pk_models.py,
lines 22-35: one Bateman curve per `(t0, dose)` pair, premasked with NaN
(`none`) strictly before its own dose time. -/
def curves_from_schedule (t : List ℝ) (schedule : List (ℝ × ℝ)) (ka ke : ℝ) :
    List (List (Option ℝ)) :=
  schedule.map (doseCurve t ka ke)

/-- `np.nan_to_num` on one sample: NaN (`none`) becomes 0. -/
def nanToNum (o : Option ℝ) : ℝ := o.getD 0

/-- The summation pattern `np.nansum(np.vstack([np.nan_to_num(c) for c in
curves]), axis=0)` used by `build_pk`
(src/graph-vyvanse-dex-pk-vs-perceived.py, lines 94-99) and by
`caffeine_total_curve` (src/utils/pk_models.py, line 98): elementwise sum
over the curve list with undefined treated as zero. -/
def nansum_curves (t : List ℝ) (curves : List (List (Option ℝ))) : List ℝ :=
  (List.range t.length).map (fun i =>
    (curves.map (fun c => nanToNum (c.getD i none))).sum)

/-- The guarded substance total of `build_pk`
(src/graph-vyvanse-dex-pk-vs-perceived.py, lines 97-98):
`np.nansum(...) if curves else np.zeros_like(t)`. -/
def build_pk_sum (t : List ℝ) (curves : List (List (Option ℝ))) : List ℝ :=
  if curves.isEmpty then List.replicate t.length 0 else nansum_curves t curves

/-- Python's `round` (banker's rounding, round-half-to-even) as applied by
`expand_split_dose` to `duration_min`.  Away from exact half-integers it is
rounding to the nearest integer; at a half it picks the even neighbour. -/
def pyRound (x : ℝ) : ℤ :=
  if Int.fract x = 1 / 2 then (if Even ⌊x⌋ then ⌊x⌋ else ⌊x⌋ + 1) else round x

/-- `expand_split_dose(start_time_h, total_amount, duration_min, parts)`
from src/utils/dosing_utils.py, lines 4-22.  `durationMin = none` models the
Python `None` argument. -/
def expand_split_dose (start_time_h total_amount : ℝ) (durationMin : Option ℝ)
    (parts : Option ℤ) : List (ℝ × ℝ) :=
  match durationMin with
  | none => [(start_time_h, total_amount)]
  | some d =>
    if d ≤ 0 then [(start_time_h, total_amount)]
    else
      let n : ℤ := max 1 (parts.getD (pyRound d))
      let step_h : ℝ := d / (n : ℝ) / 60
      let amount_each : ℝ := total_amount / (n : ℝ)
      (List.range n.toNat).map
        (fun (i : ℕ) => (start_time_h + (i : ℝ) * step_h, amount_each))

/-- A caffeine schedule entry already normalized to the
`(t0, mg, duration_min?, parts?)` shape produced by
`_expand_caffeine_schedule` (src/utils/pk_models.py, lines 44-69). -/
abbrev CafEntry : Type := ℝ × ℝ × Option ℝ × Option ℤ

/-- `caffeine_total_curve(t, schedule, ka=..., ke=...)` from
src/utils/pk_models.py, lines 72-98: expand each entry into sub-doses,
build one `bateman` curve per sub-dose, and nansum them; an empty schedule
yields `None` (here `none`). -/
def caffeine_total_curve (t : List ℝ) (schedule : List CafEntry) (ka ke : ℝ) :
    Option (List ℝ) :=
  if schedule.isEmpty then none
  else
    let curves : List (List ℝ) := schedule.flatMap (fun e =>
      let subs := match e.2.2.1 with
        | none => [(e.1, e.2.1)]
        | some d => if d ≤ 0 then [(e.1, e.2.1)] else expand_split_dose e.1 e.2.1 (some d) e.2.2.2
      subs.map (fun s => bateman t s.2 s.1 ka ke))
    if curves.isEmpty then none
    else some ((List.range t.length).map (fun i => (curves.map (fun c => c.getD i 0)).sum))

/-- Python `int()` applied to a real value: truncation toward zero. -/
def pyTrunc (x : ℝ) : ℤ := if 0 ≤ x then ⌊x⌋ else ⌈x⌉

/-- The dose times collected by `compute_time_window`
(src/graph-vyvanse-dex-pk-vs-perceived.py, lines 66-70): Vyvanse times,
Dex times, and the first field of each caffeine entry. -/
def windowTimes (vyv dex : List (ℝ × ℝ)) (caf : List CafEntry) : List ℝ :=
  vyv.map Prod.fst ++ dex.map Prod.fst ++ caf.map Prod.fst

/-- `compute_time_window(vyv_schedule, dex_schedule, caffeine_schedule,
default_start)` from src/graph-vyvanse-dex-pk-vs-perceived.py, lines 65-77:
start is `floor(min(times))` (or the default when no times), end is
`start + 24`. -/
def compute_time_window (vyv dex : List (ℝ × ℝ)) (caf : List CafEntry)
    (default_start : ℝ) : ℝ × ℝ :=
  match (windowTimes vyv dex caf).min? with
  | none => (default_start, default_start + 24)
  | some m => ((⌊m⌋ : ℝ), (⌊m⌋ : ℝ) + 24)

/-- `np.linspace(s, e, num)`: `num` evenly spaced points inclusive of both
endpoints (a single point collapses to the start point). -/
def linspace (s e : ℝ) (num : ℕ) : List ℝ :=
  if num = 1 then [s]
  else (List.range num).map (fun (i : ℕ) => s + (i : ℝ) * ((e - s) / ((num : ℝ) - 1)))

/-- The sample grid of `run` (src/graph-vyvanse-dex-pk-vs-perceived.py,
lines 307-309): `np.linspace(t_start, t_end, int((t_end - t_start) * 60 /
RES_MIN) + 1)` over the computed window. -/
def sample_grid (vyv dex : List (ℝ × ℝ)) (caf : List CafEntry) (resMin : ℝ) :
    List ℝ :=
  let w := compute_time_window vyv dex caf 8
  linspace w.1 w.2 ((pyTrunc ((w.2 - w.1) * 60 / resMin)).toNat + 1)

/-- `np.max` with the source's empty guard (`float(np.max(c)) if c.size
else 1.0`, src/graph-vyvanse-dex-pk-vs-perceived.py, lines 139-140). -/
def npMax (l : List ℝ) : ℝ :=
  match l with
  | [] => 1
  | x :: xs => xs.foldl max x

/-- `pd_kernel_biexp(dt_h, tau_r, tau_d, gain)` from
src/graph-vyvanse-dex-pk-vs-perceived.py, lines 109-126: clamped time
constants, kernel sampled on `0..int(ceil(8*tau_d/dt_h))`, normalized by
the positive-lobe area (with a near-zero guard), then scaled by gain. -/
def pd_kernel_biexp (dt_h tau_r tau_d gain : ℝ) : List ℝ :=
  let tr := max (1 / 1000) tau_r
  let td := max (tr + 1 / 1000) tau_d
  let t_max : ℤ := ⌈8 * td / dt_h⌉
  let t_k : List ℝ := (List.range (t_max + 1).toNat).map (fun (i : ℕ) => (i : ℝ) * dt_h)
  let k : List ℝ := t_k.map (fun τ => Real.exp (-τ / tr) / tr - Real.exp (-τ / td) / td)
  let pos_area := (k.map (fun x => max x 0)).sum * dt_h
  let pa := if pos_area ≤ 1 / 1000000000 then 1 else pos_area
  k.map (fun x => x / pa * gain)

/-- `np.convolve(c, k, mode='full')[:len(c)]` as used by `apply_pd_kernel`
(src/graph-vyvanse-dex-pk-vs-perceived.py, line 136): causal discrete
convolution truncated to the length of `c`. -/
def convolve_trunc (c k : List ℝ) : List ℝ :=
  (List.range c.length).map (fun j =>
    ((List.range (j + 1)).map (fun i => c.getD i 0 * k.getD (j - i) 0)).sum)

/-- The convolved-and-floored PD curve before peak matching
(src/graph-vyvanse-dex-pk-vs-perceived.py, lines 134-137):
`y = np.maximum(np.convolve(np.nan_to_num(curve), k, 'full')[:len], 0)`. -/
def pd_conv_raw (curve : List (Option ℝ)) (dt_h tau_r tau_d gain : ℝ) : List ℝ :=
  (convolve_trunc (curve.map nanToNum) (pd_kernel_biexp dt_h tau_r tau_d gain)).map
    (fun x => max x 0)

/-- `apply_pd_kernel(curve, dt_h, tau_r, tau_d, gain, match='peak',
peak_scale, clamp_scale)` from src/graph-vyvanse-dex-pk-vs-perceived.py,
lines 128-145 (all call sites use `match='peak'`, which is modelled here):
rescale the convolved curve so its peak equals `peak_scale * PK_peak`
unless the convolved peak is at most `1e-9`, then optionally clamp at
`clamp_scale * PK_peak`. -/
def apply_pd_kernel (curve : List (Option ℝ)) (dt_h tau_r tau_d gain peak_scale : ℝ)
    (clamp_scale : Option ℝ) : List ℝ :=
  let c := curve.map nanToNum
  let y := pd_conv_raw curve dt_h tau_r tau_d gain
  let pk_peak := npMax c
  let pd_peak := npMax y
  let y1 := if 1 / 1000000000 < pd_peak
    then y.map (fun v => v * (peak_scale * pk_peak / pd_peak)) else y
  match clamp_scale with
  | some cs => if 0 < pk_peak then y1.map (fun v => min v (cs * pk_peak)) else y1
  | none => y1

/-- `masked_from(time0, curve)` / `mask_from` used when emitting stop-after
branches (src/graph-vyvanse-dex-pk-vs-perceived.py, lines 223-226 and
src/graph-dex-only-curves.py, lines 80-83): NaN strictly before `time0`. -/
def maskFrom (t : List ℝ) (time0 : ℝ) (curve : List ℝ) : List (Option ℝ) :=
  List.zipWith (fun x v => if x < time0 then none else some v) t curve

/-- The stop-after projection branches of `plot_overlay`
(src/graph-vyvanse-dex-pk-vs-perceived.py, lines 229-238), PK part: for
each `i` in `range(len(DEX) - 1)` the branch is `vyv_sum +
sum(nan_to_num(c) for c in dex_pk_curves[:i+1])` masked strictly before
`branch_time = DEX[i+1][0]`. -/
def stop_after_pk_branches (t : List ℝ) (vyvSum : List ℝ)
    (dexSched : List (ℝ × ℝ)) (ka ke : ℝ) : List (List (Option ℝ)) :=
  let dexCurves := curves_from_schedule t dexSched ka ke
  (List.range (dexSched.length - 1)).map (fun i =>
    let stopSum := (List.range t.length).map (fun j =>
      vyvSum.getD j 0 + ((dexCurves.take (i + 1)).map (fun c => nanToNum (c.getD j none))).sum)
    maskFrom t (dexSched.getD (i + 1) (0, 0)).1 stopSum)

/-- The stop-after branches of the Dex-only script
(src/graph-dex-only-curves.py, lines 105-122): same partial sums, but the
loop body starts with `if i == 0: continue`, so the first branch is
skipped. -/
def stop_after_lines_dexonly (t : List ℝ) (dexSched : List (ℝ × ℝ)) (ka ke : ℝ) :
    List (List (Option ℝ)) :=
  let dexCurves := curves_from_schedule t dexSched ka ke
  ((List.range (dexCurves.length - 1)).filter (fun i => i != 0)).map (fun i =>
    let stopSum := (List.range t.length).map (fun j =>
      ((dexCurves.take (i + 1)).map (fun c => nanToNum (c.getD j none))).sum)
    maskFrom t (dexSched.getD (i + 1) (0, 0)).1 stopSum)

/-- Modelled from the spec claim wording, for comparison with the source
`bateman`: "perturbs ka by that same epsilon", i.e. evaluates the closed
form with `ka + 1e-9` (the closeness-guard epsilon) in place of `ka`. -/
def bateman_spec_same_eps (t : List ℝ) (dose t0 ka ke : ℝ) : List ℝ :=
  t.map (fun x =>
    if t0 ≤ x then
      max 0 (dose * ((ka + 1 / 1000000000) / (ka + 1 / 1000000000 - ke)) *
        (Real.exp (-ke * (x - t0)) - Real.exp (-(ka + 1 / 1000000000) * (x - t0))))
    else 0)

/- ===================== helper lemmas ===================== -/

theorem getD_map_of_lt {α β : Type} (f : α → β) (l : List α) {i : ℕ}
    (h : i < l.length) (d : β) (d' : α) :
    (l.map f).getD i d = f (l.getD i d') := by
  rw [List.getD_eq_getElem _ _ (by simpa using h), List.getD_eq_getElem _ _ h,
    List.getElem_map]

theorem getD_range_map {α : Type} (g : ℕ → α) {n i : ℕ} (h : i < n) (d : α) :
    ((List.range n).map g).getD i d = g i := by
  rw [getD_map_of_lt g _ (by simpa using h) d 0,
    List.getD_eq_getElem _ _ (by simpa using h), List.getElem_range]

theorem getD_zipWith {α β γ : Type} (f : α → β → γ) (l1 : List α) (l2 : List β)
    {i : ℕ} (h1 : i < l1.length) (h2 : i < l2.length) (d : γ) (d1 : α) (d2 : β) :
    (List.zipWith f l1 l2).getD i d = f (l1.getD i d1) (l2.getD i d2) := by
  induction l1 generalizing l2 i with
  | nil => simp at h1
  | cons a l ih =>
    cases l2 with
    | nil => simp at h2
    | cons b m =>
      cases i with
      | zero => simp
      | succ n =>
        simp only [List.zipWith_cons_cons, List.getD_cons_succ]
        exact ih m (by simpa using h1) (by simpa using h2)

theorem expand_split_dose_pos (start total d : ℝ) (parts : Option ℤ) (hd : 0 < d) :
    expand_split_dose start total (some d) parts =
      (List.range (max 1 (parts.getD (pyRound d))).toNat).map
        (fun (i : ℕ) =>
          (start + (i : ℝ) * (d / ((max 1 (parts.getD (pyRound d)) : ℤ) : ℝ) / 60),
           total / ((max 1 (parts.getD (pyRound d)) : ℤ) : ℝ))) := by
  simp only [expand_split_dose]
  rw [if_neg (not_le.mpr hd)]

theorem linspace_facts (s e : ℝ) (num : ℕ) (h2 : 2 ≤ num) :
    (linspace s e num).length = num ∧
    (linspace s e num).getD 0 0 = s ∧
    (linspace s e num).getD (num - 1) 0 = e ∧
    ∀ i, i + 1 < num →
      (linspace s e num).getD (i + 1) 0 - (linspace s e num).getD i 0 =
        (e - s) / ((num : ℝ) - 1) := by
  have hne : num ≠ 1 := by omega
  unfold linspace
  rw [if_neg hne]
  have hne0 : (num : ℝ) - 1 ≠ 0 := by
    have h2R : (2 : ℝ) ≤ (num : ℝ) := by exact_mod_cast h2
    linarith
  refine ⟨by simp, ?_, ?_, ?_⟩
  · rw [getD_range_map _ (by omega : 0 < num) 0]
    simp
  · rw [getD_range_map _ (by omega : num - 1 < num) 0]
    have hcast : ((num - 1 : ℕ) : ℝ) = (num : ℝ) - 1 := by
      rw [Nat.cast_sub (by omega : 1 ≤ num)]
      norm_num
    rw [hcast]
    field_simp
  · intro i hi
    rw [getD_range_map _ hi 0, getD_range_map _ (by omega : i < num) 0]
    push_cast
    ring

theorem compute_time_window_span (vyv dex : List (ℝ × ℝ)) (caf : List CafEntry) :
    (compute_time_window vyv dex caf 8).2 - (compute_time_window vyv dex caf 8).1 = 24 := by
  unfold compute_time_window
  rcases (windowTimes vyv dex caf).min? with - | m <;> ring

theorem foldl_max_map (f : ℝ → ℝ) (hf : ∀ a b : ℝ, f (max a b) = max (f a) (f b)) :
    ∀ (xs : List ℝ) (x : ℝ), (xs.map f).foldl max (f x) = f (xs.foldl max x) := by
  intro xs
  induction xs with
  | nil => intro x; simp
  | cons a l ih =>
    intro x
    simp only [List.map_cons, List.foldl_cons]
    rw [← hf, ih]

theorem npMax_map (f : ℝ → ℝ) (hf : ∀ a b : ℝ, f (max a b) = max (f a) (f b))
    (l : List ℝ) (hl : l ≠ []) : npMax (l.map f) = f (npMax l) := by
  cases l with
  | nil => exact absurd rfl hl
  | cons x xs =>
    simp only [npMax, List.map_cons]
    exact foldl_max_map f hf xs x

/- ===================== claim theorems ===================== -/

/-- Claim C10: for all real inputs whatsoever, `bateman` is total: it
returns a curve of exactly the grid's length in which every value is
nonnegative (the final clamp replaces every negative closed-form value with
zero). -/
theorem c10_bateman_total_and_nonneg (t : List ℝ) (dose t0 ka ke : ℝ) :
    (bateman t dose t0 ka ke).length = t.length ∧
    ∀ v ∈ bateman t dose t0 ka ke, 0 ≤ v := by
  refine ⟨by simp [bateman], ?_⟩
  intro v hv
  simp only [bateman, List.mem_map] at hv
  obtain ⟨x, -, rfl⟩ := hv
  unfold batemanVal
  split
  · exact le_max_left _ _
  · exact le_rfl

/-- Claim C5 (amended): when `|ka - ke| < 1e-9`, `bateman` evaluates the
closed form with `ka + 1e-6` in place of `ka` (the perturbation constant is
`1e-6`, not the `1e-9` guard epsilon) and never raises an error. -/
theorem c5_perturbed_closed_form (t : List ℝ) (dose t0 ka ke : ℝ)
    (h : |ka - ke| < 1 / 1000000000) :
    bateman t dose t0 ka ke = t.map (fun x =>
      if t0 ≤ x then
        max 0 (dose * ((ka + 1 / 1000000) / (ka + 1 / 1000000 - ke)) *
          (Real.exp (-ke * (x - t0)) - Real.exp (-(ka + 1 / 1000000) * (x - t0))))
      else 0) := by
  unfold bateman batemanVal bateman_ka_eff
  simp only [if_pos h]

/-- Witness for C5's amended theorem at `ka = ke = 1`. -/
theorem c5_perturbed_closed_form_w :
    |(1 : ℝ) - 1| < 1 / 1000000000 ∧
    bateman [2] 3 0 1 1 = [(2 : ℝ)].map (fun x =>
      if (0 : ℝ) ≤ x then
        max 0 (3 * ((1 + 1 / 1000000) / (1 + 1 / 1000000 - 1)) *
          (Real.exp (-1 * (x - 0)) - Real.exp (-(1 + 1 / 1000000) * (x - 0))))
      else 0) :=
  ⟨by norm_num, c5_perturbed_closed_form [2] 3 0 1 1 (by norm_num)⟩

/-- Counterexample for C5 as stated: at `ka = ke = 0` the code evaluates
the closed form with `ka + 1e-6`, not with `ka` perturbed by the guard
epsilon `1e-9`; the two resulting curves differ at the sample `t = 1`. -/
theorem c5_counterexample :
    (bateman [1] 1 0 0 0).getD 0 0 ≠ (bateman_spec_same_eps [1] 1 0 0 0).getD 0 0 := by
  have hguard : |(0 : ℝ) - 0| < 1 / 1000000000 := by norm_num
  have hb : (bateman [1] 1 0 0 0).getD 0 0 = 1 - Real.exp (-(1 / 1000000)) := by
    simp only [bateman, batemanVal, bateman_ka_eff, if_pos hguard, List.map_cons,
      List.map_nil, List.getD_cons_zero]
    rw [if_pos (by norm_num : (0 : ℝ) ≤ 1)]
    have h1 : Real.exp (-(1 / 1000000 : ℝ)) ≤ 1 := by
      rw [← Real.exp_zero]
      exact Real.exp_le_exp.mpr (by norm_num)
    rw [max_eq_right (by norm_num [Real.exp_zero] : (0:ℝ) ≤ 1 * ((0 + 1 / 1000000) / (0 + 1 / 1000000 - 0)) * (Real.exp (-0 * (1 - 0)) - Real.exp (-(0 + 1 / 1000000) * (1 - 0))))]
    norm_num
  have hs : (bateman_spec_same_eps [1] 1 0 0 0).getD 0 0 = 1 - Real.exp (-(1 / 1000000000)) := by
    simp only [bateman_spec_same_eps, List.map_cons, List.map_nil, List.getD_cons_zero]
    rw [if_pos (by norm_num : (0 : ℝ) ≤ 1)]
    have h1 : Real.exp (-(1 / 1000000000 : ℝ)) ≤ 1 := by
      rw [← Real.exp_zero]
      exact Real.exp_le_exp.mpr (by norm_num)
    rw [max_eq_right (by norm_num [Real.exp_zero] : (0:ℝ) ≤ 1 * ((0 + 1 / 1000000000) / (0 + 1 / 1000000000 - 0)) * (Real.exp (-0 * (1 - 0)) - Real.exp (-(0 + 1 / 1000000000) * (1 - 0))))]
    norm_num
  rw [hb, hs]
  intro hcontra
  have : Real.exp (-(1 / 1000000 : ℝ)) = Real.exp (-(1 / 1000000000)) := by linarith
  have := Real.exp_eq_exp.mp this
  norm_num at this

/-- Claim C1 (amended): for rates with `1e-9 ≤ |ka - ke|` (outside the
perturbation guard), every per-dose curve produced by
`curves_from_schedule` is `none` (masked) strictly before its dose time
and equals `max 0 (dose * ka/(ka-ke) * (exp(-ke*Δt) - exp(-ka*Δt)))` at
samples at or after it. -/
theorem c1_curve_values (t : List ℝ) (sched : List (ℝ × ℝ)) (ka ke : ℝ)
    (hsep : 1 / 1000000000 ≤ |ka - ke|) (j i : ℕ)
    (hj : j < sched.length) (hi : i < t.length) :
    ((curves_from_schedule t sched ka ke).getD j []).getD i none =
      if t.getD i 0 < (sched.getD j (0, 0)).1 then none
      else some (max 0 ((sched.getD j (0, 0)).2 * (ka / (ka - ke)) *
        (Real.exp (-ke * (t.getD i 0 - (sched.getD j (0, 0)).1)) -
         Real.exp (-ka * (t.getD i 0 - (sched.getD j (0, 0)).1))))) := by
  have hka : bateman_ka_eff ka ke = ka := by
    unfold bateman_ka_eff
    rw [if_neg (not_lt.mpr hsep)]
  unfold curves_from_schedule
  rw [getD_map_of_lt (doseCurve t ka ke) sched hj [] (0, 0)]
  unfold doseCurve
  rw [getD_map_of_lt _ t hi none 0]
  split
  · rfl
  · next hge =>
    unfold batemanVal
    rw [if_pos (not_lt.mp hge), hka]

/-- Witness for C1's amended theorem: one dose of 5 at `t0 = 1` with
`ka = 2, ke = 1`, evaluated at the sample `t = 2`. -/
theorem c1_curve_values_w :
    (1 : ℝ) / 1000000000 ≤ |(2 : ℝ) - 1| ∧ (0 : ℕ) < 1 ∧ (1 : ℕ) < 2 ∧
    ((curves_from_schedule [0, 2] [(1, 5)] 2 1).getD 0 []).getD 1 none =
      if ([(0 : ℝ), 2].getD 1 0) < (([((1 : ℝ), (5 : ℝ))].getD 0 (0, 0)).1) then none
      else some (max 0 (([((1 : ℝ), (5 : ℝ))].getD 0 (0, 0)).2 * (2 / (2 - 1)) *
        (Real.exp (-1 * ([(0 : ℝ), 2].getD 1 0 - ([((1 : ℝ), (5 : ℝ))].getD 0 (0, 0)).1)) -
         Real.exp (-2 * ([(0 : ℝ), 2].getD 1 0 - ([((1 : ℝ), (5 : ℝ))].getD 0 (0, 0)).1))))) :=
  ⟨by norm_num, by norm_num, by norm_num,
    c1_curve_values [0, 2] [(1, 5)] 2 1 (by norm_num) 0 1 (by norm_num) (by norm_num)⟩

/-- Counterexample for C1 as stated: with `ka = 0` and `ke = 5e-10` we have
`ka ≠ ke`, yet the per-dose curve at the sample `t = 1 ≥ t0 = 0` is not the
claimed `max 0 (dose * ka/(ka-ke) * ...)` (which is 0 here, since `ka = 0`):
the code perturbs `ka` inside the guard and produces a positive value. -/
theorem c1_counterexample :
    (0 : ℝ) ≠ 1 / 2000000000 ∧
    ((curves_from_schedule [1] [(0, 1)] 0 (1 / 2000000000)).getD 0 []).getD 0 none ≠
      some (max 0 (1 * ((0 : ℝ) / (0 - 1 / 2000000000)) *
        (Real.exp (-(1 / 2000000000) * ((1 : ℝ) - 0)) - Real.exp (-(0 : ℝ) * ((1 : ℝ) - 0))))) := by
  refine ⟨by norm_num, ?_⟩
  have hguard : |(0 : ℝ) - 1 / 2000000000| < 1 / 1000000000 := by
    rw [abs_sub_comm, abs_of_nonneg (by norm_num)]
    norm_num
  have hval : ((curves_from_schedule [1] [(0, 1)] 0 (1 / 2000000000)).getD 0 []).getD 0 none =
      some (max 0 (1 * ((1 / 1000000) / (1 / 1000000 - 1 / 2000000000)) *
        (Real.exp (-(1 / 2000000000) * (1 - 0)) - Real.exp (-(0 + 1 / 1000000) * (1 - 0))))) := by
    simp only [curves_from_schedule, doseCurve, batemanVal, bateman_ka_eff, if_pos hguard,
      List.map_cons, List.map_nil, List.getD_cons_zero]
    rw [if_neg (by norm_num : ¬(1 : ℝ) < 0), if_pos (by norm_num : (0 : ℝ) ≤ 1)]
    norm_num
  rw [hval]
  intro hcontra
  have heq := Option.some.inj hcontra
  have hpos : 0 < 1 * ((1 / 1000000 : ℝ) / (1 / 1000000 - 1 / 2000000000)) *
      (Real.exp (-(1 / 2000000000) * (1 - 0)) - Real.exp (-(0 + 1 / 1000000) * (1 - 0))) := by
    have hexp : Real.exp (-(0 + 1 / 1000000 : ℝ) * (1 - 0)) < Real.exp (-(1 / 2000000000 : ℝ) * (1 - 0)) :=
      Real.exp_lt_exp.mpr (by norm_num)
    have hcoef : (0 : ℝ) < 1 * ((1 / 1000000) / (1 / 1000000 - 1 / 2000000000)) := by norm_num
    exact mul_pos hcoef (by linarith)
  rw [max_eq_right hpos.le] at heq
  have hzero : max 0 (1 * ((0 : ℝ) / (0 - 1 / 2000000000)) *
      (Real.exp (-(1 / 2000000000) * ((1 : ℝ) - 0)) - Real.exp (-(0 : ℝ) * ((1 : ℝ) - 0)))) = 0 := by
    norm_num
  rw [hzero] at heq
  exact absurd heq.symm hpos.ne

/-- Claim C6: summing a finite list of per-dose curves elementwise with
undefined-treated-as-zero semantics is invariant under any permutation of
the list. -/
theorem c6_nansum_perm_invariant (t : List ℝ) (cs1 cs2 : List (List (Option ℝ)))
    (h : cs1.Perm cs2) : nansum_curves t cs1 = nansum_curves t cs2 := by
  unfold nansum_curves
  refine List.map_congr_left ?_
  intro i _
  exact List.Perm.sum_eq (h.map _)

/-- Witness for C6 at a concrete two-curve swap. -/
theorem c6_nansum_perm_invariant_w :
    ([[some 1, none], [some 2, some 3]] : List (List (Option ℝ))).Perm
      [[some 2, some 3], [some 1, none]] ∧
    nansum_curves [0, 5] [[some 1, none], [some 2, some 3]] =
      nansum_curves [0, 5] [[some 2, some 3], [some 1, none]] :=
  ⟨List.Perm.swap _ _ _,
    c6_nansum_perm_invariant [0, 5] _ _ (List.Perm.swap _ _ _)⟩

/-- Claim C7 (amended): an empty schedule is not an error; the guarded
`build_pk` substance total is the all-zero curve over the sample grid,
while `caffeine_total_curve` yields the absent value `None` (which the
caller handles by skipping), not a zero curve. -/
theorem c7_empty_schedule (t : List ℝ) (ka ke : ℝ) :
    build_pk_sum t (curves_from_schedule t [] ka ke) = List.replicate t.length 0 ∧
    caffeine_total_curve t [] ka ke = none := by
  constructor
  · simp [build_pk_sum, curves_from_schedule]
  · simp [caffeine_total_curve]

/-- Counterexample for C7 as stated: with an empty schedule,
`caffeine_total_curve` yields `None` (an absent value), not the all-zero
total curve over the grid. -/
theorem c7_counterexample :
    caffeine_total_curve [0] [] 2 1 = none ∧
    caffeine_total_curve [0] [] 2 1 ≠ some (List.replicate 1 0) := by
  refine ⟨by simp [caffeine_total_curve], ?_⟩
  simp [caffeine_total_curve]

/-- Claim C9 (the failing input for the code bug): the code performs no
validation of kinetic or kernel parameters.  With the non-positive rate
`ka = -1` (`ke = 1/2`), `bateman` silently computes the curve `[0, 0]`
instead of rejecting the input, and with non-positive time constants
`tau_r = -5, tau_d = -7`, `pd_kernel_biexp` silently clamps them and
produces a two-sample kernel. -/
theorem c9_no_rejection_of_nonpositive_params :
    bateman [0, 1] 1 0 (-1) (1 / 2) = [0, 0] ∧
    (pd_kernel_biexp 1 (-5) (-7) 1).length = 2 := by
  constructor
  · have hguard : ¬(|(-1 : ℝ) - 1 / 2| < 1 / 1000000000) := by
      rw [show (-1 : ℝ) - 1 / 2 = -(3 / 2) by norm_num, abs_neg,
        abs_of_nonneg (by norm_num : (0 : ℝ) ≤ 3 / 2)]
      norm_num
    have hexp : Real.exp (-(1 / 2 : ℝ) * (1 - 0)) ≤ Real.exp (-(-1 : ℝ) * (1 - 0)) :=
      Real.exp_le_exp.mpr (by norm_num)
    simp only [bateman, batemanVal, bateman_ka_eff, if_neg hguard, List.map_cons,
      List.map_nil]
    rw [if_pos (by norm_num : (0 : ℝ) ≤ 0), if_pos (by norm_num : (0 : ℝ) ≤ 1)]
    simp only [List.cons.injEq, and_true]
    constructor
    · norm_num
    · rw [max_eq_left ?_]
      nlinarith [hexp]
  · have htr : max ((1 : ℝ) / 1000) (-5) = 1 / 1000 := max_eq_left (by norm_num)
    have hceil : (⌈(8 : ℝ) * max (max ((1 : ℝ) / 1000) (-5) + 1 / 1000) (-7) / 1⌉ : ℤ) = 1 := by
      rw [htr, max_eq_left (by norm_num : (-7 : ℝ) ≤ 1 / 1000 + 1 / 1000)]
      rw [Int.ceil_eq_iff]
      constructor <;> norm_num
    simp only [pd_kernel_biexp, List.length_map, List.length_range, hceil]
    rfl

/-- Claim C4: `expand_split_dose` returns a single pair when the duration
is absent or non-positive; otherwise it emits `n = max 1 (parts else
round(duration))` equal sub-doses of `total/n`, evenly spaced with the
first sub-dose exactly at `start_time` (sub-dose `i` at
`start_time + i * (duration/n)/60`), whose amounts sum to the total and
whose times are non-decreasing and bounded within
`[start, start + duration/60]`. -/
theorem c4_expand_split_dose (start total dpos dneg : ℝ) (parts : Option ℤ)
    (hpos : 0 < dpos) (hneg : dneg ≤ 0) :
    expand_split_dose start total none parts = [(start, total)] ∧
    expand_split_dose start total (some dneg) parts = [(start, total)] ∧
    (expand_split_dose start total (some dpos) parts).length =
      (max 1 (parts.getD (pyRound dpos))).toNat ∧
    ((expand_split_dose start total (some dpos) parts).map Prod.snd).sum = total ∧
    (∀ p ∈ expand_split_dose start total (some dpos) parts,
      p.2 = total / ((max 1 (parts.getD (pyRound dpos)) : ℤ) : ℝ) ∧
      start ≤ p.1 ∧ p.1 ≤ start + dpos / 60) ∧
    List.Pairwise (· ≤ ·) ((expand_split_dose start total (some dpos) parts).map Prod.fst) ∧
    (∀ i, i + 1 < (expand_split_dose start total (some dpos) parts).length →
      ((expand_split_dose start total (some dpos) parts).getD (i + 1) (0, 0)).1 -
      ((expand_split_dose start total (some dpos) parts).getD i (0, 0)).1 =
        dpos / ((max 1 (parts.getD (pyRound dpos)) : ℤ) : ℝ) / 60) ∧
    (expand_split_dose start total (some dpos) parts).getD 0 (0, 0) =
      (start, total / ((max 1 (parts.getD (pyRound dpos)) : ℤ) : ℝ)) ∧
    (∀ i, i < (expand_split_dose start total (some dpos) parts).length →
      (expand_split_dose start total (some dpos) parts).getD i (0, 0) =
        (start + (i : ℝ) * (dpos / ((max 1 (parts.getD (pyRound dpos)) : ℤ) : ℝ) / 60),
         total / ((max 1 (parts.getD (pyRound dpos)) : ℤ) : ℝ))) := by
  have hkey := expand_split_dose_pos start total dpos parts hpos
  set n : ℤ := max 1 (parts.getD (pyRound dpos)) with hn
  have hn1 : (1 : ℤ) ≤ n := le_max_left _ _
  have hnpos : (0 : ℝ) < (n : ℝ) := by exact_mod_cast lt_of_lt_of_le zero_lt_one hn1
  have hnne : ((n : ℝ)) ≠ 0 := ne_of_gt hnpos
  have htoNat : ((n.toNat : ℕ) : ℝ) = (n : ℝ) := by
    rw [← Int.cast_natCast, Int.toNat_of_nonneg (by omega : (0 : ℤ) ≤ n)]
  have hstep : (0 : ℝ) ≤ dpos / (n : ℝ) / 60 :=
    div_nonneg (div_nonneg hpos.le hnpos.le) (by norm_num)
  refine ⟨rfl, ?_, ?_, ?_, ?_, ?_, ?_, ?_, ?_⟩
  · simp only [expand_split_dose]
    rw [if_pos hneg]
  · rw [hkey]
    simp
  · rw [hkey, List.map_map]
    have hconst : (Prod.snd ∘ fun i : ℕ =>
        ((start + (i : ℝ) * (dpos / (n : ℝ) / 60), total / (n : ℝ)) : ℝ × ℝ)) =
        fun _ : ℕ => total / (n : ℝ) := rfl
    rw [hconst, List.map_const', List.length_range, List.sum_replicate, nsmul_eq_mul,
      htoNat]
    field_simp
  · intro p hp
    rw [hkey] at hp
    simp only [List.mem_map, List.mem_range] at hp
    obtain ⟨i, hi, rfl⟩ := hp
    refine ⟨rfl, ?_, ?_⟩
    · have h0 : (0 : ℝ) ≤ (i : ℝ) * (dpos / (n : ℝ) / 60) :=
        mul_nonneg (Nat.cast_nonneg i) hstep
      simpa using add_le_add_left h0 start
    · have hiR : (i : ℝ) ≤ (n : ℝ) - 1 := by
        have hle : i + 1 ≤ n.toNat := hi
        have hcast : ((i : ℕ) : ℝ) + 1 ≤ ((n.toNat : ℕ) : ℝ) := by exact_mod_cast hle
        rw [htoNat] at hcast
        linarith
      have h1 : (i : ℝ) * (dpos / (n : ℝ) / 60) ≤ ((n : ℝ) - 1) * (dpos / (n : ℝ) / 60) :=
        mul_le_mul_of_nonneg_right hiR hstep
      have h2 : ((n : ℝ) - 1) * (dpos / (n : ℝ) / 60) ≤ dpos / 60 := by
        rw [div_div, mul_div_assoc']
        rw [div_le_div_iff₀ (mul_pos hnpos (by norm_num)) (by norm_num : (0 : ℝ) < 60)]
        nlinarith [hpos, hnpos]
      show start + (i : ℝ) * (dpos / (n : ℝ) / 60) ≤ start + dpos / 60
      linarith
  · rw [hkey, List.map_map]
    have hfst : (Prod.fst ∘ fun i : ℕ =>
        ((start + (i : ℝ) * (dpos / (n : ℝ) / 60), total / (n : ℝ)) : ℝ × ℝ)) =
        fun i : ℕ => start + (i : ℝ) * (dpos / (n : ℝ) / 60) := rfl
    rw [hfst, List.pairwise_map]
    refine List.Pairwise.imp ?_ (List.pairwise_lt_range n.toNat)
    intro a b hab
    have hcast : ((a : ℕ) : ℝ) ≤ ((b : ℕ) : ℝ) := by exact_mod_cast hab.le
    exact add_le_add_left (mul_le_mul_of_nonneg_right hcast hstep) start
  · intro i hi
    rw [hkey] at hi ⊢
    simp only [List.length_map, List.length_range] at hi
    rw [getD_range_map _ hi (0, 0), getD_range_map _ (by omega : i < n.toNat) (0, 0)]
    push_cast
    ring
  · have h0 : 0 < n.toNat := by omega
    rw [hkey, getD_range_map _ h0 (0, 0)]
    norm_num
  · intro i hi
    rw [hkey] at hi ⊢
    simp only [List.length_map, List.length_range] at hi
    rw [getD_range_map _ hi (0, 0)]

/-- Witness for C4: the spec's own concrete scenario, a 15-unit dose split
over 60 minutes into 4 explicit parts starting at `t = 8` — sub-doses of
15/4 at times 8, 8.25, 8.5, 8.75 — plus the degenerate
non-positive-duration case. -/
theorem c4_expand_split_dose_w :
    (0 : ℝ) < 60 ∧ (-5 : ℝ) ≤ 0 ∧
    (expand_split_dose 8 15 (some 60) (some 4)).length = 4 ∧
    ((expand_split_dose 8 15 (some 60) (some 4)).map Prod.snd).sum = 15 ∧
    (expand_split_dose 8 15 (some 60) (some 4)).getD 0 (0, 0) = (8, 15 / 4) ∧
    (expand_split_dose 8 15 (some 60) (some 4)).getD 1 (0, 0) = (8 + 1 / 4, 15 / 4) ∧
    (expand_split_dose 8 15 (some 60) (some 4)).getD 2 (0, 0) = (8 + 1 / 2, 15 / 4) ∧
    (expand_split_dose 8 15 (some 60) (some 4)).getD 3 (0, 0) = (8 + 3 / 4, 15 / 4) ∧
    expand_split_dose 8 15 (some (-5)) (some 4) = [(8, 15)] := by
  have h := c4_expand_split_dose 8 15 60 (-5) (some 4) (by norm_num) (by norm_num)
  have hmax : ((max 1 ((some (4 : ℤ)).getD (pyRound 60)) : ℤ) : ℝ) = 4 := by
    rw [show (max 1 ((some (4 : ℤ)).getD (pyRound 60)) : ℤ) = 4 from rfl]
    norm_num
  have hlen : (expand_split_dose 8 15 (some 60) (some 4)).length = 4 := by
    rw [h.2.2.1]
    rfl
  have hidx := h.2.2.2.2.2.2.2.2
  refine ⟨by norm_num, by norm_num, hlen, h.2.2.2.1, ?_, ?_, ?_, ?_, h.2.1⟩
  · rw [h.2.2.2.2.2.2.2.1, hmax]
  · rw [hidx 1 (by rw [hlen]; norm_num), hmax]
    norm_num
  · rw [hidx 2 (by rw [hlen]; norm_num), hmax]
    norm_num
  · rw [hidx 3 (by rw [hlen]; norm_num), hmax]
    norm_num

/-- Claim C8 (amended): the window starts at `floor(min of all dose times)`
(default 8 with no doses) and spans exactly 24 hours, and the grid contains
`floor((end-start)*60/res) + 1` points — truncation, i.e. Python `int()`,
not `round` (they coincide at the source's 1-minute resolution) — evenly
spaced and inclusive of both endpoints. -/
theorem c8_sample_grid (vyv dex : List (ℝ × ℝ)) (caf : List CafEntry) (res : ℝ)
    (hres : 0 < res) (hres24 : res ≤ 1440) :
    (windowTimes vyv dex caf = [] → compute_time_window vyv dex caf 8 = (8, 8 + 24)) ∧
    (∀ m, (windowTimes vyv dex caf).min? = some m →
      compute_time_window vyv dex caf 8 = ((⌊m⌋ : ℝ), (⌊m⌋ : ℝ) + 24)) ∧
    (compute_time_window vyv dex caf 8).2 - (compute_time_window vyv dex caf 8).1 = 24 ∧
    (sample_grid vyv dex caf res).length = (⌊(24 : ℝ) * 60 / res⌋).toNat + 1 ∧
    (sample_grid vyv dex caf res).getD 0 0 = (compute_time_window vyv dex caf 8).1 ∧
    (sample_grid vyv dex caf res).getD ((sample_grid vyv dex caf res).length - 1) 0 =
      (compute_time_window vyv dex caf 8).2 ∧
    ∀ i, i + 1 < (sample_grid vyv dex caf res).length →
      (sample_grid vyv dex caf res).getD (i + 1) 0 - (sample_grid vyv dex caf res).getD i 0 =
        24 / ((⌊(24 : ℝ) * 60 / res⌋ : ℤ) : ℝ) := by
  have hspan := compute_time_window_span vyv dex caf
  have hNge1 : 1 ≤ ⌊(24 : ℝ) * 60 / res⌋ := by
    apply Int.le_floor.mpr
    push_cast
    rw [le_div_iff₀ hres]
    linarith
  have harg : (0 : ℝ) ≤
      ((compute_time_window vyv dex caf 8).2 - (compute_time_window vyv dex caf 8).1) * 60 / res := by
    rw [hspan]
    positivity
  have hN : pyTrunc
      (((compute_time_window vyv dex caf 8).2 - (compute_time_window vyv dex caf 8).1) * 60 / res) =
      ⌊(24 : ℝ) * 60 / res⌋ := by
    rw [pyTrunc, if_pos harg, hspan]
  have hgrid : sample_grid vyv dex caf res =
      linspace (compute_time_window vyv dex caf 8).1 (compute_time_window vyv dex caf 8).2
        ((⌊(24 : ℝ) * 60 / res⌋).toNat + 1) := by
    simp only [sample_grid]
    rw [hN]
  have hnum2 : 2 ≤ (⌊(24 : ℝ) * 60 / res⌋).toNat + 1 := by omega
  have hfacts := linspace_facts (compute_time_window vyv dex caf 8).1
    (compute_time_window vyv dex caf 8).2 ((⌊(24 : ℝ) * 60 / res⌋).toNat + 1) hnum2
  refine ⟨?_, ?_, hspan, ?_, ?_, ?_, ?_⟩
  · intro h
    unfold compute_time_window
    rw [h]
    rfl
  · intro m hm
    unfold compute_time_window
    rw [hm]
  · rw [hgrid, hfacts.1]
  · rw [hgrid, hfacts.2.1]
  · rw [hgrid, hfacts.1, hfacts.2.2.1]
  · intro i hi
    rw [hgrid] at hi ⊢
    rw [hfacts.1] at hi
    rw [hfacts.2.2.2 i hi]
    have hnn : (0 : ℤ) ≤ ⌊(24 : ℝ) * 60 / res⌋ := by omega
    have hcast : (((⌊(24 : ℝ) * 60 / res⌋).toNat + 1 : ℕ) : ℝ) - 1 =
        ((⌊(24 : ℝ) * 60 / res⌋ : ℤ) : ℝ) := by
      rw [Nat.cast_add, Nat.cast_one, ← Int.cast_natCast, Int.toNat_of_nonneg hnn]
      ring
    rw [hspan, hcast]

/-- Witness for C8's amended theorem at the source's resolution of 1
minute, on empty schedules. -/
theorem c8_sample_grid_w :
    (0 : ℝ) < 1 ∧ (1 : ℝ) ≤ 1440 ∧
    (sample_grid [] [] [] 1).length = (⌊(24 : ℝ) * 60 / 1⌋).toNat + 1 ∧
    (compute_time_window [] [] [] 8).2 - (compute_time_window [] [] [] 8).1 = 24 ∧
    (sample_grid [] [] [] 1).getD 0 0 = (compute_time_window [] [] [] 8).1 :=
  ⟨by norm_num, by norm_num,
    (c8_sample_grid [] [] [] 1 (by norm_num) (by norm_num)).2.2.2.1,
    (c8_sample_grid [] [] [] 1 (by norm_num) (by norm_num)).2.2.1,
    (c8_sample_grid [] [] [] 1 (by norm_num) (by norm_num)).2.2.2.2.1⟩

/-- Counterexample for C8 as stated: at a resolution of 7 minutes the code
truncates `1440/7` to 205 and produces a 206-point grid, while the claimed
`round((end-start)*60/res) + 1` formula would give 207 points. -/
theorem c8_counterexample :
    (sample_grid [] [] [] 7).length = 206 ∧
    (round (((compute_time_window [] [] [] 8).2 - (compute_time_window [] [] [] 8).1)
      * 60 / 7)).toNat + 1 = 207 := by
  have hw : compute_time_window [] [] [] 8 = (8, 8 + 24) := rfl
  have hval : ((compute_time_window [] [] [] 8).2 - (compute_time_window [] [] [] 8).1)
      * 60 / 7 = 1440 / 7 := by
    rw [hw]
    norm_num
  constructor
  · have h205 : pyTrunc ((((8 : ℝ), (8 : ℝ) + 24).2 - ((8 : ℝ), (8 : ℝ) + 24).1) * 60 / 7) =
        205 := by
      rw [pyTrunc, if_pos (by norm_num : (0 : ℝ) ≤ (((8 : ℝ), (8 : ℝ) + 24).2 -
        ((8 : ℝ), (8 : ℝ) + 24).1) * 60 / 7)]
      rw [show (((8 : ℝ), (8 : ℝ) + 24).2 - ((8 : ℝ), (8 : ℝ) + 24).1) * 60 / 7 =
        1440 / 7 by norm_num]
      rw [Int.floor_eq_iff]
      constructor <;> norm_num
    have hgrid : sample_grid [] [] [] 7 = linspace 8 (8 + 24) 206 := by
      simp only [sample_grid, hw, h205]
      rfl
    rw [hgrid, linspace, if_neg (by norm_num : (206 : ℕ) ≠ 1)]
    simp
  · rw [hval, round_eq]
    rw [show (1440 : ℝ) / 7 + 1 / 2 = 2887 / 14 by norm_num]
    rw [show ⌊(2887 : ℝ) / 14⌋ = 206 from by
      rw [Int.floor_eq_iff]
      constructor <;> norm_num]
    rfl

/-- Claim C2 (amended): for a time-ordered schedule, `plot_overlay` emits
exactly `n - 1` stop-after branches; branch `i` is masked strictly before
`branch_time = time of dose i+1`, and at samples at or after it equals the
non-participating substance's full total plus the sum of exactly the first
`i+1` per-dose Bateman curves (the Dex-only script additionally skips
branch 0 — see the counterexample). -/
theorem c2_stop_after_branches (t : List ℝ) (vyvSum : List ℝ)
    (dexSched : List (ℝ × ℝ)) (ka ke : ℝ)
    (hsort : List.Pairwise (fun p q : ℝ × ℝ => p.1 ≤ q.1) dexSched)
    (i j : ℕ) (hi : i < dexSched.length - 1) (hj : j < t.length) :
    (stop_after_pk_branches t vyvSum dexSched ka ke).length = dexSched.length - 1 ∧
    (t.getD j 0 < (dexSched.getD (i + 1) (0, 0)).1 →
      ((stop_after_pk_branches t vyvSum dexSched ka ke).getD i []).getD j none = none) ∧
    ((dexSched.getD (i + 1) (0, 0)).1 ≤ t.getD j 0 →
      ((stop_after_pk_branches t vyvSum dexSched ka ke).getD i []).getD j none =
        some (vyvSum.getD j 0 +
          ((dexSched.take (i + 1)).map
            (fun p => batemanVal p.2 p.1 ka ke (t.getD j 0))).sum)) := by
  have hi1 : i + 1 < dexSched.length := by omega
  have hbranch : (stop_after_pk_branches t vyvSum dexSched ka ke).getD i [] =
      maskFrom t (dexSched.getD (i + 1) (0, 0)).1
        ((List.range t.length).map (fun j =>
          vyvSum.getD j 0 + (((curves_from_schedule t dexSched ka ke).take (i + 1)).map
            (fun c => nanToNum (c.getD j none))).sum)) := by
    simp only [stop_after_pk_branches]
    exact getD_range_map _ hi []
  have hslen : j < ((List.range t.length).map (fun j =>
      vyvSum.getD j 0 + (((curves_from_schedule t dexSched ka ke).take (i + 1)).map
        (fun c => nanToNum (c.getD j none))).sum)).length := by
    simpa using hj
  have hmask : ((stop_after_pk_branches t vyvSum dexSched ka ke).getD i []).getD j none =
      if t.getD j 0 < (dexSched.getD (i + 1) (0, 0)).1 then none
      else some (vyvSum.getD j 0 +
        (((curves_from_schedule t dexSched ka ke).take (i + 1)).map
          (fun c => nanToNum (c.getD j none))).sum) := by
    rw [hbranch, maskFrom, getD_zipWith _ t _ hj hslen none 0 0,
      getD_range_map _ hj 0]
  refine ⟨by simp [stop_after_pk_branches], ?_, ?_⟩
  · intro hlt
    rw [hmask, if_pos hlt]
  · intro hge
    rw [hmask, if_neg (not_lt.mpr hge)]
    have htake : (curves_from_schedule t dexSched ka ke).take (i + 1) =
        (dexSched.take (i + 1)).map (doseCurve t ka ke) := by
      rw [curves_from_schedule, List.map_take]
    have hbound : ∀ p ∈ dexSched.take (i + 1), p.1 ≤ (dexSched.getD (i + 1) (0, 0)).1 := by
      intro p hp
      obtain ⟨k, hk, hgetp⟩ := List.mem_iff_getElem.mp hp
      have hklen : k < dexSched.length := by
        have := hk
        simp only [List.length_take] at this
        omega
      have hk1 : k < i + 1 := by
        have := hk
        simp only [List.length_take] at this
        omega
      have hgetk : (dexSched.take (i + 1))[k] = dexSched[k] := List.getElem_take _
      rw [List.getD_eq_getElem _ _ hi1]
      have hrel := (List.pairwise_iff_getElem.mp hsort) k (i + 1) hklen hi1 (by omega)
      rw [← hgetp, hgetk]
      exact hrel
    have hcongr : (dexSched.take (i + 1)).map
        ((fun c => nanToNum (c.getD j none)) ∘ doseCurve t ka ke) =
        (dexSched.take (i + 1)).map
          (fun p => batemanVal p.2 p.1 ka ke (t.getD j 0)) := by
      apply List.map_congr_left
      intro p hp
      simp only [Function.comp_apply, doseCurve]
      rw [getD_map_of_lt _ t hj none 0]
      rw [if_neg (not_lt.mpr (le_trans (hbound p hp) hge))]
      rfl
    rw [htake, List.map_map, hcongr]

/-- Witness for C2's amended theorem: two Dex doses at times 0 and 1 with a
constant Vyvanse total, evaluated at the sample `t = 2` on branch 0. -/
theorem c2_stop_after_branches_w :
    List.Pairwise (fun p q : ℝ × ℝ => p.1 ≤ q.1) [((0 : ℝ), (1 : ℝ)), (1, 1)] ∧
    (0 : ℕ) < [((0 : ℝ), (1 : ℝ)), (1, 1)].length - 1 ∧ (1 : ℕ) < [(0 : ℝ), 2].length ∧
    ((stop_after_pk_branches [0, 2] [10, 10] [(0, 1), (1, 1)] 2 1).length =
      [((0 : ℝ), (1 : ℝ)), (1, 1)].length - 1 ∧
    ([(0 : ℝ), 2].getD 1 0 < ([((0 : ℝ), (1 : ℝ)), (1, 1)].getD 1 (0, 0)).1 →
      ((stop_after_pk_branches [0, 2] [10, 10] [(0, 1), (1, 1)] 2 1).getD 0 []).getD 1 none =
        none) ∧
    (([((0 : ℝ), (1 : ℝ)), (1, 1)].getD 1 (0, 0)).1 ≤ [(0 : ℝ), 2].getD 1 0 →
      ((stop_after_pk_branches [0, 2] [10, 10] [(0, 1), (1, 1)] 2 1).getD 0 []).getD 1 none =
        some ([(10 : ℝ), 10].getD 1 0 +
          (([((0 : ℝ), (1 : ℝ)), (1, 1)].take 1).map
            (fun p => batemanVal p.2 p.1 2 1 ([(0 : ℝ), 2].getD 1 0))).sum))) :=
  ⟨by norm_num, by norm_num, by norm_num,
    c2_stop_after_branches [0, 2] [10, 10] [(0, 1), (1, 1)] 2 1
      (by norm_num) 0 1 (by norm_num) (by norm_num)⟩

/-- Counterexample for C2 as stated: the Dex-only script's stop-after loop
(`stop_after_lines_dexonly`) skips branch 0, so a 2-dose schedule emits 0
branches, not `n - 1 = 1`. -/
theorem c2_counterexample :
    ([((0 : ℝ), (1 : ℝ)), ((1 : ℝ), (1 : ℝ))] : List (ℝ × ℝ)).length = 2 ∧
    (stop_after_lines_dexonly [0] [((0 : ℝ), 1), ((1 : ℝ), 1)] 2 1).length = 0 := by
  constructor
  · rfl
  · rfl

theorem pd_demo_B_nonpos : Real.exp (-1000) * 1000 - Real.exp (-500) * 500 ≤ 0 := by
  have hmul : Real.exp (-500 : ℝ) * Real.exp (500 : ℝ) = 1 := by
    rw [← Real.exp_add]
    norm_num
  have h3 : (2 : ℝ) ≤ Real.exp 500 := by
    have := Real.add_one_le_exp (500 : ℝ)
    linarith
  have h2 : Real.exp (-500 : ℝ) ≤ 1 / 2 := by
    nlinarith [Real.exp_pos (-500 : ℝ)]
  have h1 : Real.exp (-1000 : ℝ) = Real.exp (-500) * Real.exp (-500) := by
    rw [← Real.exp_add]
    norm_num
  nlinarith [Real.exp_pos (-500 : ℝ)]

theorem pd_demo_kernel :
    pd_kernel_biexp 1 (1 / 1000) (1 / 500) 1 =
      [1, (Real.exp (-1000) * 1000 - Real.exp (-500) * 500) / 500] := by
  have htr : max ((1 : ℝ) / 1000) (1 / 1000) = 1 / 1000 := max_self _
  have htd : max (max ((1 : ℝ) / 1000) (1 / 1000) + 1 / 1000) (1 / 500) = 1 / 500 := by
    rw [htr, show (1 : ℝ) / 1000 + 1 / 1000 = 1 / 500 by norm_num, max_self]
  have hceil : ⌈(8 : ℝ) * max (max ((1 : ℝ) / 1000) (1 / 1000) + 1 / 1000) (1 / 500) / 1⌉ =
      (1 : ℤ) := by
    rw [htd, Int.ceil_eq_iff]
    constructor <;> norm_num
  have htd2 : max ((1 : ℝ) / 1000 + 1 / 1000) (1 / 500) = 1 / 500 := by
    rw [show (1 : ℝ) / 1000 + 1 / 1000 = 1 / 500 by norm_num, max_self]
  simp only [pd_kernel_biexp]
  rw [hceil, htr, htd2]
  rw [show ((1 : ℤ) + 1).toNat = 2 from rfl, show List.range 2 = [0, 1] from rfl]
  simp only [List.map_cons, List.map_nil, List.sum_cons, List.sum_nil]
  rw [show -(((0 : ℕ) : ℝ) * 1) / (1 / 1000) = 0 by norm_num,
    show -(((0 : ℕ) : ℝ) * 1) / (1 / 500) = 0 by norm_num,
    show -(((1 : ℕ) : ℝ) * 1) / (1 / 1000) = -1000 by norm_num,
    show -(((1 : ℕ) : ℝ) * 1) / (1 / 500) = -500 by norm_num,
    Real.exp_zero]
  rw [show (1 : ℝ) / (1 / 1000) - 1 / (1 / 500) = 500 by norm_num,
    show Real.exp (-1000 : ℝ) / (1 / 1000) - Real.exp (-500) / (1 / 500) =
      Real.exp (-1000) * 1000 - Real.exp (-500) * 500 by ring]
  rw [max_eq_left (by norm_num : (0 : ℝ) ≤ 500),
    max_eq_right pd_demo_B_nonpos]
  rw [show ((500 : ℝ) + (0 + 0)) * 1 = 500 by norm_num]
  rw [if_neg (by norm_num : ¬(500 : ℝ) ≤ 1 / 1000000000)]
  norm_num

theorem pd_demo_cmap : (([some 1, some 0] : List (Option ℝ)).map nanToNum) = [1, 0] := by
  simp [nanToNum]

theorem npMax_pair_demo : npMax [(1 : ℝ), 0] = 1 := by
  simp only [npMax, List.foldl_cons, List.foldl_nil]
  norm_num

theorem pd_demo_conv :
    pd_conv_raw [some 1, some 0] 1 (1 / 1000) (1 / 500) 1 = [1, 0] := by
  simp only [pd_conv_raw, convolve_trunc, pd_demo_cmap, pd_demo_kernel]
  rw [show ([(1 : ℝ), 0] : List ℝ).length = 2 from rfl,
    show List.range 2 = [0, 1] from rfl]
  simp only [List.map_cons, List.map_nil, List.sum_cons, List.sum_nil]
  rw [show List.range (0 + 1) = [0] from rfl, show List.range (1 + 1) = [0, 1] from rfl]
  simp only [List.map_cons, List.map_nil, List.sum_cons, List.sum_nil,
    Nat.sub_self, List.getD_cons_zero, List.getD_cons_succ]
  have hB2 : (1 : ℝ) * ((Real.exp (-1000) * 1000 - Real.exp (-500) * 500) / 500) +
      ((0 : ℝ) * 1 + 0) ≤ 0 := by
    have := pd_demo_B_nonpos
    nlinarith
  rw [max_eq_right hB2, show (1 : ℝ) * 1 + 0 = 1 by norm_num,
    max_eq_left (by norm_num : (0 : ℝ) ≤ 1)]

theorem pd_conv_raw_len (curve : List (Option ℝ)) (dt tr td g : ℝ) :
    (pd_conv_raw curve dt tr td g).length = curve.length := by
  simp [pd_conv_raw, convolve_trunc]

/-- Claim C3 (amended): with a nonempty PK curve of positive peak, a
nonnegative `peak_scale`, and a convolved peak above the `1e-9` guard, the
peak-matched PD curve has maximum exactly `peak_scale * PK_peak`; with a
clamp scale set, no sample exceeds `clamp_scale * PK_peak`, and the maximum
remains `peak_scale * PK_peak` only when `peak_scale ≤ clamp_scale` (a
clamp below the peak target lowers the maximum — see the counterexample). -/
theorem c3_pd_peak_matching (curve : List (Option ℝ)) (dt tr td g ps : ℝ)
    (hne : curve ≠ [])
    (hpk : 0 < npMax (curve.map nanToNum))
    (hps : 0 ≤ ps)
    (hpd : 1 / 1000000000 < npMax (pd_conv_raw curve dt tr td g)) :
    npMax (apply_pd_kernel curve dt tr td g ps none) =
      ps * npMax (curve.map nanToNum) ∧
    (∀ cs : ℝ, ∀ x ∈ apply_pd_kernel curve dt tr td g ps (some cs),
      x ≤ cs * npMax (curve.map nanToNum)) ∧
    (∀ cs : ℝ, ps ≤ cs →
      npMax (apply_pd_kernel curve dt tr td g ps (some cs)) =
        ps * npMax (curve.map nanToNum)) := by
  have hpd0 : (0 : ℝ) < npMax (pd_conv_raw curve dt tr td g) :=
    lt_trans (by norm_num) hpd
  have hα : 0 ≤ ps * npMax (curve.map nanToNum) / npMax (pd_conv_raw curve dt tr td g) :=
    div_nonneg (mul_nonneg hps hpk.le) hpd0.le
  have hyne : pd_conv_raw curve dt tr td g ≠ [] := by
    intro h
    have hl := pd_conv_raw_len curve dt tr td g
    rw [h] at hl
    exact hne (List.length_eq_zero.mp hl.symm)
  have hy1 : npMax ((pd_conv_raw curve dt tr td g).map
      (fun v => v * (ps * npMax (curve.map nanToNum) /
        npMax (pd_conv_raw curve dt tr td g)))) =
      ps * npMax (curve.map nanToNum) := by
    rw [npMax_map _ (fun a b => max_mul_of_nonneg a b hα) _ hyne]
    field_simp
  have hy1ne : (pd_conv_raw curve dt tr td g).map
      (fun v => v * (ps * npMax (curve.map nanToNum) /
        npMax (pd_conv_raw curve dt tr td g))) ≠ [] := by
    intro h
    exact hyne (List.map_eq_nil_iff.mp h)
  refine ⟨?_, ?_, ?_⟩
  · simp only [apply_pd_kernel]
    rw [if_pos hpd]
    exact hy1
  · intro cs x hx
    simp only [apply_pd_kernel] at hx
    rw [if_pos hpd, if_pos hpk] at hx
    simp only [List.mem_map] at hx
    obtain ⟨v, -, rfl⟩ := hx
    exact min_le_right _ _
  · intro cs hcs
    simp only [apply_pd_kernel]
    rw [if_pos hpd, if_pos hpk]
    rw [npMax_map (fun v => min v (cs * npMax (curve.map nanToNum)))
      (fun a b => min_max_distrib_right a b (cs * npMax (curve.map nanToNum))) _ hy1ne]
    rw [hy1]
    exact min_eq_left (mul_le_mul_of_nonneg_right hcs hpk.le)

/-- Witness for C3's amended theorem on the two-sample spike curve. -/
theorem c3_pd_peak_matching_w :
    (([some 1, some 0] : List (Option ℝ)) ≠ []) ∧
    0 < npMax (([some 1, some 0] : List (Option ℝ)).map nanToNum) ∧
    ((0 : ℝ) ≤ 1) ∧
    1 / 1000000000 < npMax (pd_conv_raw [some 1, some 0] 1 (1 / 1000) (1 / 500) 1) ∧
    npMax (apply_pd_kernel [some 1, some 0] 1 (1 / 1000) (1 / 500) 1 1 none) =
      1 * npMax (([some 1, some 0] : List (Option ℝ)).map nanToNum) := by
  have hpk : 0 < npMax (([some 1, some 0] : List (Option ℝ)).map nanToNum) := by
    rw [pd_demo_cmap, npMax_pair_demo]
    norm_num
  have hpd : 1 / 1000000000 <
      npMax (pd_conv_raw [some 1, some 0] 1 (1 / 1000) (1 / 500) 1) := by
    rw [pd_demo_conv, npMax_pair_demo]
    norm_num
  exact ⟨by simp, hpk, by norm_num, hpd,
    (c3_pd_peak_matching [some 1, some 0] 1 (1 / 1000) (1 / 500) 1 1
      (by simp) hpk (by norm_num) hpd).1⟩

/-- Counterexample for C3 as stated: with `peak_scale = 1` and
`clamp_scale = 1/2` (a legal PD parameter set), the clamped PD curve's
maximum is `1/2`, not `peak_scale * PK_peak = 1`. -/
theorem c3_counterexample :
    npMax (([some 1, some 0] : List (Option ℝ)).map nanToNum) = 1 ∧
    npMax (apply_pd_kernel [some 1, some 0] 1 (1 / 1000) (1 / 500) 1 1 (some (1 / 2))) ≠
      1 * npMax (([some 1, some 0] : List (Option ℝ)).map nanToNum) := by
  have hcm : npMax (([some 1, some 0] : List (Option ℝ)).map nanToNum) = 1 := by
    rw [pd_demo_cmap, npMax_pair_demo]
  refine ⟨hcm, ?_⟩
  have happ : apply_pd_kernel [some 1, some 0] 1 (1 / 1000) (1 / 500) 1 1 (some (1 / 2)) =
      [1 / 2, 0] := by
    simp only [apply_pd_kernel]
    rw [pd_demo_conv]
    rw [if_pos (by rw [npMax_pair_demo]; norm_num :
      (1 : ℝ) / 1000000000 < npMax [(1 : ℝ), 0])]
    rw [if_pos (by rw [hcm]; norm_num :
      (0 : ℝ) < npMax (([some 1, some 0] : List (Option ℝ)).map nanToNum))]
    rw [hcm, npMax_pair_demo]
    simp only [List.map_cons, List.map_nil]
    norm_num
  rw [happ, hcm]
  rw [show npMax [(1 : ℝ) / 2, 0] = 1 / 2 from by
    simp only [npMax, List.foldl_cons, List.foldl_nil]
    norm_num]
  norm_num

end









